import Mathlib

/-!
# Verification of the host-side frame driver and display decoder

Shallow embedding of `src/website/js/App.js`: the `Canvas` drawing class,
the `Game.render` display-decoding routine, and the `Game.run` frame-driver
loop.  Drawing is modelled observably: each canvas-context call becomes a
`DrawOp` value, and a JS `throw` becomes the `Except.error` case.  The wasm
engine is abstract: a state type together with the accessors the host calls
(`step`, `input`, `score`, `display`, `display_len`, `cols`, `rows`, and the
raw memory).  The driver is run on fuel, producing a trace of events.
-/

/-- An observable drawing operation issued against the 2D context.
Geometry is in exact rational pixel coordinates. -/
inductive DrawOp where
  | clearRect (x y w h : ℚ)
  | strokeRect (x y w h : ℚ)
  | rect (x y w h : ℚ) (color : String)
  | arc (x y r : ℚ) (color : String)
  | fillText (text : Nat) (x y : ℚ)
  deriving Repr, DecidableEq

/-- The errors the host code can throw: the out-of-bounds draw error of
`Canvas.drawBall` / `Canvas.drawBlock` (App.js lines 96-98 and 111-113). -/
inductive JsError where
  | outOfBounds (x y : Int)
  deriving Repr, DecidableEq

/-- The `Canvas` class state set up by its constructor (App.js lines 73-82):
grid dimensions, pixel dimensions, and the derived cell size. -/
structure Canvas where
  cols : Nat
  rows : Nat
  width : ℚ
  height : ℚ
  colWidth : ℚ
  rowHeight : ℚ
  deriving Repr, DecidableEq

namespace Canvas

/-- `new Canvas(can, cols, rows)`: `colWidth = width / cols`,
`rowHeight = height / rows`. -/
def new (width height : ℚ) (cols rows : Nat) : Canvas :=
  { cols := cols, rows := rows, width := width, height := height
    colWidth := width / cols, rowHeight := height / rows }

/-- `clear()` (App.js lines 84-86). -/
def clear (c : Canvas) : DrawOp :=
  .clearRect 0 0 c.width c.height

/-- `drawBorder()` (App.js lines 88-93), modelled by its stroke call. -/
def drawBorder (c : Canvas) : DrawOp :=
  .strokeRect 0 0 c.width c.height

/-- `drawBall(x, y, color)` (App.js lines 95-108): throws when
`x > this.cols || y > this.rows`, otherwise fills an arc centered at
`(colWidth*(x+0.5), rowHeight*(y+0.5))` with radius `rowHeight/2`;
the color defaults to navy. -/
def drawBall (c : Canvas) (x y : Int) (color : Option String) :
    Except JsError DrawOp :=
  if x > (c.cols : Int) ∨ y > (c.rows : Int) then
    .error (.outOfBounds x y)
  else
    .ok (.arc (c.colWidth * ((x : ℚ) + 1/2)) (c.rowHeight * ((y : ℚ) + 1/2))
      (c.rowHeight / 2) (color.getD "navy"))

/-- `drawBlock(x, y, color)` (App.js lines 110-123): throws when
`x > this.cols || y > this.rows`, otherwise fills the rectangle at
`(colWidth*x, rowHeight*y)` of one cell size; the color defaults to navy. -/
def drawBlock (c : Canvas) (x y : Int) (color : Option String) :
    Except JsError DrawOp :=
  if x > (c.cols : Int) ∨ y > (c.rows : Int) then
    .error (.outOfBounds x y)
  else
    .ok (.rect (c.colWidth * (x : ℚ)) (c.rowHeight * (y : ℚ))
      c.colWidth c.rowHeight (color.getD "navy"))

/-- `drawScore(score)` (App.js lines 125-133): fillText of the score at
`((cols - 3) * colWidth, 1.75 * rowHeight)`. -/
def drawScore (c : Canvas) (score : Nat) : DrawOp :=
  .fillText score (((c.cols : ℚ) - 3) * c.colWidth) ((7/4) * c.rowHeight)

end Canvas

namespace Game

/-- The coordinate computed for byte index `i` in the display array
(App.js lines 56-57): `y = Math.floor(i / cols)`, `x = i % cols`.
Returned as `(col, row)`. -/
def cellCoord (cols i : Nat) : Nat × Nat :=
  (i % cols, i / cols)

/-- The draw calls issued for the display byte `b` at index `i`
(App.js lines 58-67): byte 0 draws nothing; byte 1 is a black block;
bytes 2 and 3 are navy blocks; byte 4 is a red ball; any other byte value
falls through every branch and draws nothing. -/
def renderCell (c : Canvas) (cols i b : Nat) : Except JsError (List DrawOp) :=
  let x : Nat := (cellCoord cols i).1
  let y : Nat := (cellCoord cols i).2
  if b = 0 then .ok []
  else if b = 1 then do
    let op ← c.drawBlock x y (some "black")
    .ok [op]
  else if b = 2 then do
    let op ← c.drawBlock x y (some "navy")
    .ok [op]
  else if b = 3 then do
    let op ← c.drawBlock x y (some "navy")
    .ok [op]
  else if b = 4 then do
    let op ← c.drawBall x y (some "red")
    .ok [op]
  else .ok []

/-- The `display.forEach((byte, i) => ...)` loop of `render`
(App.js lines 55-68), starting at index `i`.  A thrown draw error stops
the iteration and propagates. -/
def renderCells (c : Canvas) (cols : Nat) : Nat → List Nat →
    Except JsError (List DrawOp)
  | _, [] => .ok []
  | i, b :: rest => do
    let ops ← renderCell c cols i b
    let more ← renderCells c cols (i + 1) rest
    .ok (ops ++ more)

/-- `render()` (App.js lines 45-69) given the decoded byte view `display`
and the current score: clear, border, score, then the per-cell draw calls. -/
def render (c : Canvas) (cols : Nat) (score : Nat) (display : List Nat) :
    Except JsError (List DrawOp) := do
  let cells ← renderCells c cols 0 display
  .ok (c.clear :: c.drawBorder :: c.drawScore score :: cells)

end Game

/-- The engine handle: the wasm `Game` object's operations consumed by the
host (App.js lines 31-32, 37, 40, 48, 51-54), over an abstract state type
`σ` and opaque move type `μ`.  `step` is the read-only decide operation,
`input` commits a move, and `memory`/`display`/`display_len` describe where
the current frame's bytes live. -/
structure Engine (σ μ : Type) where
  step : σ → Option μ
  input : σ → μ → σ
  score : σ → Nat
  display : σ → Nat
  display_len : σ → Nat
  memory : σ → Nat → Nat
  cols : Nat
  rows : Nat

/-- `new Uint8Array(buffer, ptr, len)` (App.js lines 49-53): the `len` bytes
of the region starting at `ptr`, read from the current memory. -/
def extractView (mem : Nat → Nat) (ptr len : Nat) : List Nat :=
  (List.range len).map fun j => mem (ptr + j)

namespace Game

/-- The fresh byte view `render` constructs on each call (App.js lines 49-53),
from the engine state's current memory buffer, frame pointer and length. -/
def view (E : Engine σ μ) (s : σ) : List Nat :=
  extractView (E.memory s) (E.display s) (E.display_len s)

end Game

/-- Observable events of one driver execution: a decide call and its result,
a completed render with the view it read and the ops it drew, a committed
move, or a render that threw (ending the loop). -/
inductive Ev (μ : Type) where
  | decide : Option μ → Ev μ
  | render : List Nat → List DrawOp → Ev μ
  | commit : μ → Ev μ
  | renderErr : JsError → Ev μ

namespace Ev

def isRender : Ev μ → Bool
  | .render _ _ => true
  | _ => false

def isCommit : Ev μ → Bool
  | .commit _ => true
  | _ => false

end Ev

namespace Game

/-- `run()` (App.js lines 36-43), traced with `fuel` remaining rescheduled
invocations: call `step()`; if it returns `undefined` the loop ends with no
render and no commit; otherwise render the current state, pass the move to
`input`, and reschedule via `setTimeout`.  A render that throws propagates
out of `run`, so neither `input` nor the rescheduling happens. -/
def run (E : Engine σ μ) (c : Canvas) : Nat → σ → List (Ev μ)
  | 0, _ => []
  | fuel + 1, s =>
    match E.step s with
    | none => [.decide none]
    | some m =>
      .decide (some m) ::
      match render c E.cols (E.score s) (view E s) with
      | .error e => [.renderErr e]
      | .ok ops => .render (view E s) ops :: .commit m :: run E c fuel (E.input s m)

end Game

/-- Phase-machine check that a trace is a sequence of complete
decide-render-commit cycles: phase 0 expects a decide (or the end of the
trace, or a final decide of "no move"), phase 1 expects the render of the
cycle (or a terminal thrown render), phase 2 expects the commit. -/
def ordered : Nat → List (Ev μ) → Bool
  | 0, [] => true
  | 0, [.decide none] => true
  | 0, .decide (some _) :: rest => ordered 1 rest
  | 1, [.renderErr _] => true
  | 1, .render _ _ :: rest => ordered 2 rest
  | 2, .commit _ :: rest => ordered 0 rest
  | _, _ => false

/-- `sepByDecide isA armed evs`: no two `isA` events occur without a decide
event strictly between them (`armed` records that an `isA` event has been
seen since the last decide). -/
def sepByDecide (isA : Ev μ → Bool) : Bool → List (Ev μ) → Bool
  | _, [] => true
  | _, .decide _ :: rest => sepByDecide isA false rest
  | armed, e :: rest =>
    if isA e then !armed && sepByDecide isA true rest
    else sepByDecide isA armed rest

/-- Replay of the engine state along a trace (the state advances exactly at
commit events): every render event read its view from the engine state as it
stood at that point, before the cycle's move was committed, and drew exactly
what `Game.render` produces for that state. -/
def framesPreCommit (E : Engine σ μ) (c : Canvas) : σ → List (Ev μ) → Prop
  | _, [] => True
  | s, .render v ops :: rest =>
      v = Game.view E s ∧
      Game.render c E.cols (E.score s) (Game.view E s) = .ok ops ∧
      framesPreCommit E c s rest
  | s, .commit m :: rest => framesPreCommit E c (E.input s m) rest
  | s, .decide _ :: rest => framesPreCommit E c s rest
  | s, .renderErr _ :: rest => framesPreCommit E c s rest

/-- Replay along a trace checking only view freshness: every render event's
byte view is the one re-derived from the engine state current at that event
(the state after every commit so far), never a view kept from before an
earlier commit. -/
def viewsFresh (E : Engine σ μ) : σ → List (Ev μ) → Prop
  | _, [] => True
  | s, .render v _ :: rest => v = Game.view E s ∧ viewsFresh E s rest
  | s, .commit m :: rest => viewsFresh E (E.input s m) rest
  | s, .decide _ :: rest => viewsFresh E s rest
  | s, .renderErr _ :: rest => viewsFresh E s rest

/-- Count of events satisfying a predicate in a trace. -/
def countEv (p : Ev μ → Bool) (evs : List (Ev μ)) : Nat :=
  (evs.filter p).length

/-- Whether an `Except` computation succeeded (a JS call that did not throw). -/
def exceptOk : Except ε α → Bool
  | .ok _ => true
  | .error _ => false

/-- A concrete canvas for witnesses: a 2-column, 1-row grid on a 200 by 100
pixel surface, so each cell is 100 by 100. -/
def canvas0 : Canvas :=
  { cols := 2, rows := 1, width := 200, height := 100
    colWidth := 100, rowHeight := 100 }

/-- A concrete two-cell engine for witnesses: one move available from state 0,
no move from any later state; the frame bytes are `[0, 4]`. -/
def engine0 : Engine Nat Unit :=
  { step := fun s => if s = 0 then some () else none
    input := fun s _ => s + 1
    score := fun _ => 42
    display := fun _ => 0
    display_len := fun _ => 2
    memory := fun _ j => if j = 1 then 4 else 0
    cols := 2
    rows := 1 }

deriving instance DecidableEq for Except

/-- On an in-bounds coordinate, `drawBlock` succeeds with its fill call. -/
theorem drawBlock_ok_eq (c : Canvas) (x y : Int) (color : Option String)
    (hx : x ≤ (c.cols : Int)) (hy : y ≤ (c.rows : Int)) :
    c.drawBlock x y color =
      .ok (.rect (c.colWidth * (x : ℚ)) (c.rowHeight * (y : ℚ))
        c.colWidth c.rowHeight (color.getD "navy")) := by
  unfold Canvas.drawBlock
  rw [if_neg (by omega)]

/-- On an in-bounds coordinate, `drawBall` succeeds with its arc call. -/
theorem drawBall_ok_eq (c : Canvas) (x y : Int) (color : Option String)
    (hx : x ≤ (c.cols : Int)) (hy : y ≤ (c.rows : Int)) :
    c.drawBall x y color =
      .ok (.arc (c.colWidth * ((x : ℚ) + 1/2)) (c.rowHeight * ((y : ℚ) + 1/2))
        (c.rowHeight / 2) (color.getD "navy")) := by
  unfold Canvas.drawBall
  rw [if_neg (by omega)]

/-- **C2**: for every `(col, row)` with `col ≤ cols` and `row ≤ rows`,
`drawBlock` and `drawBall` do not throw; for every `col > cols` or
`row > rows`, they throw the out-of-bounds error.  The check is strict
greater-than, so `(cols, rows)` itself is accepted. -/
theorem draw_bounds_check (c : Canvas) (x y : Int) (color : Option String) :
    (x ≤ (c.cols : Int) ∧ y ≤ (c.rows : Int) →
      exceptOk (c.drawBlock x y color) = true ∧
      exceptOk (c.drawBall x y color) = true) ∧
    (x > (c.cols : Int) ∨ y > (c.rows : Int) →
      c.drawBlock x y color = .error (.outOfBounds x y) ∧
      c.drawBall x y color = .error (.outOfBounds x y)) := by
  constructor
  · rintro ⟨hx, hy⟩
    rw [drawBlock_ok_eq c x y color hx hy, drawBall_ok_eq c x y color hx hy]
    exact ⟨rfl, rfl⟩
  · intro h
    unfold Canvas.drawBlock Canvas.drawBall
    rw [if_pos h, if_pos h]
    exact ⟨rfl, rfl⟩

/-- **C2 witness**: on the 2-by-1 canvas, drawing exactly at `(2, 1)` (the
boundary indices equal to `cols` and `rows`) succeeds, and `(3, 1)` throws. -/
theorem draw_bounds_check_witness :
    (exceptOk (canvas0.drawBlock 2 1 none) = true ∧
      exceptOk (canvas0.drawBall 2 1 none) = true) ∧
    (canvas0.drawBlock 3 1 none = .error (.outOfBounds 3 1) ∧
      canvas0.drawBall 3 1 none = .error (.outOfBounds 3 1)) :=
  ⟨(draw_bounds_check canvas0 2 1 none).1 (by decide),
   (draw_bounds_check canvas0 3 1 none).2 (by decide)⟩

/-- **C10**: negative coordinates are never rejected: the bounds validation
only checks the upper bounds, so any draw with a negative `col` or `row`
(and the other coordinate not above its upper bound) does not throw. -/
theorem negative_coords_accepted (c : Canvas) (x y : Int) (color : Option String)
    (_hneg : x < 0 ∨ y < 0) (hx : x ≤ (c.cols : Int)) (hy : y ≤ (c.rows : Int)) :
    exceptOk (c.drawBlock x y color) = true ∧
    exceptOk (c.drawBall x y color) = true := by
  rw [drawBlock_ok_eq c x y color hx hy, drawBall_ok_eq c x y color hx hy]
  exact ⟨rfl, rfl⟩

/-- **C10 witness**: `(-5, 0)` is arbitrarily far outside the surface and
both draw calls still succeed. -/
theorem negative_coords_accepted_witness :
    exceptOk (canvas0.drawBlock (-5) 0 none) = true ∧
    exceptOk (canvas0.drawBall (-5) 0 none) = true :=
  negative_coords_accepted canvas0 (-5) 0 none (Or.inl (by decide))
    (by decide) (by decide)

/-- **C4**: the cell decoder maps byte index `i` to `col = i % cols`,
`row = i / cols` (integer division); this is index-consistent (the pair
determines `i` by `row * cols + col = i`) and lands inside the grid. -/
theorem cellCoord_index_consistent (cols rows i : Nat) (h : i < cols * rows) :
    (Game.cellCoord cols i).1 = i % cols ∧
    (Game.cellCoord cols i).2 = i / cols ∧
    (Game.cellCoord cols i).2 * cols + (Game.cellCoord cols i).1 = i ∧
    (Game.cellCoord cols i).1 < cols ∧
    (Game.cellCoord cols i).2 < rows := by
  have hc : 0 < cols := by
    rcases Nat.eq_zero_or_pos cols with h0 | h0
    · rw [h0] at h; simp at h
    · exact h0
  refine ⟨rfl, rfl, ?_, Nat.mod_lt _ hc, Nat.div_lt_of_lt_mul h⟩
  show i / cols * cols + i % cols = i
  rw [Nat.mul_comm]
  exact Nat.div_add_mod i cols

/-- **C4 witness**: with `cols = 4`, `rows = 3`, byte index 5 decodes to
`(col = 1, row = 1)`, and that coordinate determines index 5 again. -/
theorem cellCoord_index_consistent_witness :
    Game.cellCoord 4 5 = (1, 1) ∧
    (Game.cellCoord 4 5).2 * 4 + (Game.cellCoord 4 5).1 = 5 :=
  ⟨by decide, (cellCoord_index_consistent 4 3 5 (by decide)).2.2.1⟩

/-- Binding a successful `Except` into a singleton list is `Except.map`. -/
theorem except_bind_singleton (e : Except JsError DrawOp) :
    (do let op ← e; pure [op] : Except JsError (List DrawOp)) =
      Except.map (fun op => [op]) e := by
  cases e <;> rfl

/-- **C5**: the render color policy is fixed: byte 0 draws nothing; byte 1
is a `drawBlock` in black; bytes 2 and 3 are both `drawBlock` in the same
navy; byte 4 is a `drawBall` in red; and the three colors are pairwise
distinct. -/
theorem render_color_mapping (c : Canvas) (cols i : Nat) :
    Game.renderCell c cols i 0 = .ok [] ∧
    Game.renderCell c cols i 1 =
      Except.map (fun op => [op])
        (c.drawBlock ((Game.cellCoord cols i).1 : Int)
          ((Game.cellCoord cols i).2 : Int) (some "black")) ∧
    Game.renderCell c cols i 2 =
      Except.map (fun op => [op])
        (c.drawBlock ((Game.cellCoord cols i).1 : Int)
          ((Game.cellCoord cols i).2 : Int) (some "navy")) ∧
    Game.renderCell c cols i 3 = Game.renderCell c cols i 2 ∧
    Game.renderCell c cols i 4 =
      Except.map (fun op => [op])
        (c.drawBall ((Game.cellCoord cols i).1 : Int)
          ((Game.cellCoord cols i).2 : Int) (some "red")) ∧
    ("black" ≠ "navy" ∧ "navy" ≠ "red" ∧ "black" ≠ "red") := by
  refine ⟨rfl, ?_, ?_, ?_, ?_, by decide, by decide, by decide⟩
  · show (do let op ← c.drawBlock _ _ (some "black"); pure [op] :
        Except JsError (List DrawOp)) = _
    exact except_bind_singleton _
  · show (do let op ← c.drawBlock _ _ (some "navy"); pure [op] :
        Except JsError (List DrawOp)) = _
    exact except_bind_singleton _
  · rfl
  · show (do let op ← c.drawBall _ _ (some "red"); pure [op] :
        Except JsError (List DrawOp)) = _
    exact except_bind_singleton _

/-- **C3 counterexample**: the claim says an unknown byte yields a
`DecodeError` marker and is flagged rather than silently ignored.  The code
has no such marker: byte 9 produces exactly the output of `Empty` (no draw
call, no error), so a frame containing 9 renders identically to the same
frame with 0 in its place. -/
theorem unknown_byte_no_marker :
    Game.renderCell canvas0 2 0 9 = .ok [] ∧
    Game.render canvas0 2 42 [9, 4] = Game.render canvas0 2 42 [0, 4] := by
  exact ⟨rfl, rfl⟩

/-- **C3 amended**: for every byte outside the known set `{0,1,2,3,4}`,
decoding does not throw and silently skips the cell (no draw call and no
error marker), continuing with the remaining cells unchanged. -/
theorem unknown_byte_skipped (c : Canvas) (cols i b : Nat) (hb : 5 ≤ b)
    (rest : List Nat) :
    Game.renderCell c cols i b = .ok [] ∧
    Game.renderCells c cols i (b :: rest) =
      Game.renderCells c cols (i + 1) rest := by
  have h0 : Game.renderCell c cols i b = .ok [] := by
    unfold Game.renderCell
    rw [if_neg (by omega), if_neg (by omega), if_neg (by omega),
      if_neg (by omega), if_neg (by omega)]
  refine ⟨h0, ?_⟩
  show (do let ops ← Game.renderCell c cols i b
           let more ← Game.renderCells c cols (i + 1) rest
           Except.ok (ops ++ more)) = Game.renderCells c cols (i + 1) rest
  rw [h0]
  cases hr : Game.renderCells c cols (i + 1) rest with
  | error e => rfl
  | ok ops => rfl

/-- **C3 amended witness**: byte 9 at index 0 of `[9, 4]` is skipped and
decoding continues with the remaining cell. -/
theorem unknown_byte_skipped_witness :
    Game.renderCell canvas0 2 0 9 = .ok [] ∧
    Game.renderCells canvas0 2 0 (9 :: [4]) =
      Game.renderCells canvas0 2 (0 + 1) [4] :=
  unknown_byte_skipped canvas0 2 0 9 (by decide) [4]

/-- **C8**: every successful render contains the `drawScore` call with
exactly the score value it was given, and `drawScore` places that value at
the fixed anchor `((cols - 3) * colWidth, 1.75 * rowHeight)`. -/
theorem drawScore_in_render (c : Canvas) (cols score : Nat)
    (display : List Nat) (ops : List DrawOp)
    (h : Game.render c cols score display = .ok ops) :
    c.drawScore score ∈ ops ∧
    c.drawScore score =
      .fillText score (((c.cols : ℚ) - 3) * c.colWidth)
        ((7/4) * c.rowHeight) := by
  refine ⟨?_, rfl⟩
  unfold Game.render at h
  cases hr : Game.renderCells c cols 0 display with
  | error e =>
    rw [hr] at h
    have h2 : Except.error (α := List DrawOp) e = Except.ok ops := h
    simp at h2
  | ok cells =>
    rw [hr] at h
    have h2 : Except.ok (c.clear :: c.drawBorder :: c.drawScore score :: cells)
        = Except.ok (ε := JsError) ops := h
    injection h2 with h3
    rw [← h3]
    simp

/-- **C8 witness**: with `score() = 42` on the 2-by-1 canvas, the render
output contains `fillText` of the literal 42 at `((2-3)*100, 1.75*100)`,
i.e. at `(-100, 175)`. -/
theorem drawScore_in_render_witness :
    Canvas.drawScore canvas0 42 ∈
      [DrawOp.clearRect 0 0 200 100, DrawOp.strokeRect 0 0 200 100,
        DrawOp.fillText 42 (-100) 175] ∧
    Canvas.drawScore canvas0 42 =
      .fillText 42 (((canvas0.cols : ℚ) - 3) * canvas0.colWidth)
        ((7/4) * canvas0.rowHeight) :=
  drawScore_in_render canvas0 2 42 []
    [DrawOp.clearRect 0 0 200 100, DrawOp.strokeRect 0 0 200 100,
      DrawOp.fillText 42 (-100) 175] (by
    have h : Game.render canvas0 2 42 [] =
        .ok [canvas0.clear, canvas0.drawBorder, canvas0.drawScore 42] := rfl
    rw [h]
    norm_num [canvas0, Canvas.clear, Canvas.drawBorder, Canvas.drawScore])

/-- A cell whose decoded coordinate is within the upper bounds renders
without throwing, whatever its byte value. -/
theorem renderCell_ok (c : Canvas) (cols i b : Nat)
    (hx : (Game.cellCoord cols i).1 ≤ c.cols)
    (hy : (Game.cellCoord cols i).2 ≤ c.rows) :
    exceptOk (Game.renderCell c cols i b) = true := by
  have hxi : ((Game.cellCoord cols i).1 : Int) ≤ (c.cols : Int) := by
    exact_mod_cast hx
  have hyi : ((Game.cellCoord cols i).2 : Int) ≤ (c.rows : Int) := by
    exact_mod_cast hy
  simp only [Game.renderCell]
  split_ifs with h0 h1 h2 h3 h4
  · rfl
  · rw [drawBlock_ok_eq c _ _ _ hxi hyi]; rfl
  · rw [drawBlock_ok_eq c _ _ _ hxi hyi]; rfl
  · rw [drawBlock_ok_eq c _ _ _ hxi hyi]; rfl
  · rw [drawBall_ok_eq c _ _ _ hxi hyi]; rfl
  · rfl

/-- The forEach loop over a display slice whose indices all stay below
`cols * rows` never throws. -/
theorem renderCells_ok (c : Canvas) :
    ∀ (display : List Nat) (start : Nat),
      start + display.length ≤ c.cols * c.rows →
      ∃ ops, Game.renderCells c c.cols start display = .ok ops := by
  intro display
  induction display with
  | nil => exact fun start _ => ⟨[], rfl⟩
  | cons b rest ih =>
    intro start h
    have hstart : start < c.cols * c.rows := by
      refine Nat.lt_of_lt_of_le ?_ h
      simp
    have hcell := renderCell_ok c c.cols start b
      (Nat.le_of_lt (Nat.mod_lt _ (by
        rcases Nat.eq_zero_or_pos c.cols with h0 | h0
        · rw [h0] at hstart; simp at hstart
        · exact h0)))
      (Nat.le_of_lt (Nat.div_lt_of_lt_mul hstart))
    cases hc : Game.renderCell c c.cols start b with
    | error e => rw [hc] at hcell; simp [exceptOk] at hcell
    | ok ops0 =>
      obtain ⟨ops1, hops1⟩ := ih (start + 1) (by
        have heq : start + 1 + rest.length = start + (b :: rest).length := by
          simp; omega
        rw [heq]; exact h)
      refine ⟨ops0 ++ ops1, ?_⟩
      show (do let ops ← Game.renderCell c c.cols start b
               let more ← Game.renderCells c c.cols (start + 1) rest
               Except.ok (ops ++ more)) = Except.ok (ops0 ++ ops1)
      rw [hc, hops1]
      rfl

/-- **C9**: when the byte view has length exactly `cols * rows`, every draw
the render pipeline issues targets `col < cols` and `row < rows`, so the
out-of-bounds branch is unreachable and `render` never throws. -/
theorem render_in_bounds_no_throw (c : Canvas) (score : Nat)
    (display : List Nat) (hlen : display.length = c.cols * c.rows) :
    (∀ i, i < display.length →
      (Game.cellCoord c.cols i).1 < c.cols ∧
      (Game.cellCoord c.cols i).2 < c.rows) ∧
    exceptOk (Game.render c c.cols score display) = true := by
  constructor
  · intro i hi
    rw [hlen] at hi
    have hc : 0 < c.cols := by
      rcases Nat.eq_zero_or_pos c.cols with h0 | h0
      · rw [h0] at hi; simp at hi
      · exact h0
    exact ⟨Nat.mod_lt _ hc, Nat.div_lt_of_lt_mul hi⟩
  · obtain ⟨ops, hops⟩ := renderCells_ok c display 0 (by rw [Nat.zero_add, hlen])
    unfold Game.render
    rw [hops]
    rfl

/-- **C9 witness**: on the 2-by-1 canvas with the two-byte frame `[0, 4]`,
`render` succeeds. -/
theorem render_in_bounds_no_throw_witness :
    exceptOk (Game.render canvas0 canvas0.cols 42 [0, 4]) = true :=
  (render_in_bounds_no_throw canvas0 42 [0, 4] (by decide)).2

/-- Every driver trace follows the decide, render, commit phase machine. -/
theorem run_ordered {σ μ : Type} (E : Engine σ μ) (c : Canvas) :
    ∀ (n : Nat) (s : σ), ordered 0 (Game.run E c n s) = true := by
  intro n
  induction n with
  | zero => intro s; rfl
  | succ n ih =>
    intro s
    unfold Game.run
    cases hstep : E.step s with
    | none => rfl
    | some m =>
      cases hrender : Game.render c E.cols (E.score s) (Game.view E s) with
      | error e => rfl
      | ok ops => exact ih (E.input s m)

/-- No two render events of a driver trace occur without a decide event
between them, from any armed state. -/
theorem run_sepRender {σ μ : Type} (E : Engine σ μ) (c : Canvas) :
    ∀ (n : Nat) (s : σ) (b : Bool),
      sepByDecide Ev.isRender b (Game.run E c n s) = true := by
  intro n
  induction n with
  | zero => intro s b; rfl
  | succ n ih =>
    intro s b
    unfold Game.run
    cases hstep : E.step s with
    | none => rfl
    | some m =>
      cases hrender : Game.render c E.cols (E.score s) (Game.view E s) with
      | error e => rfl
      | ok ops => exact ih (E.input s m) true

/-- No two commit events of a driver trace occur without a decide event
between them, from any armed state. -/
theorem run_sepCommit {σ μ : Type} (E : Engine σ μ) (c : Canvas) :
    ∀ (n : Nat) (s : σ) (b : Bool),
      sepByDecide Ev.isCommit b (Game.run E c n s) = true := by
  intro n
  induction n with
  | zero => intro s b; rfl
  | succ n ih =>
    intro s b
    unfold Game.run
    cases hstep : E.step s with
    | none => rfl
    | some m =>
      cases hrender : Game.render c E.cols (E.score s) (Game.view E s) with
      | error e => rfl
      | ok ops => exact ih (E.input s m) true

/-- Every render event of a driver trace read its view from, and drew the
output of, the engine state as it stood before that cycle's commit. -/
theorem run_framesPreCommit {σ μ : Type} (E : Engine σ μ) (c : Canvas) :
    ∀ (n : Nat) (s : σ), framesPreCommit E c s (Game.run E c n s) := by
  intro n
  induction n with
  | zero => intro s; exact trivial
  | succ n ih =>
    intro s
    unfold Game.run
    cases hstep : E.step s with
    | none => exact trivial
    | some m =>
      cases hrender : Game.render c E.cols (E.score s) (Game.view E s) with
      | error e => exact trivial
      | ok ops => exact ⟨rfl, hrender, ih (E.input s m)⟩

/-- **C1**: every driver execution is a strict sequence of
decide-render-commit cycles: the phase order is never violated, no two
renders and no two commits happen without an intervening decide, and each
render reflects the engine state before that cycle's move is committed. -/
theorem run_cycle_discipline {σ μ : Type} (E : Engine σ μ) (c : Canvas)
    (n : Nat) (s : σ) :
    ordered 0 (Game.run E c n s) = true ∧
    sepByDecide Ev.isRender false (Game.run E c n s) = true ∧
    sepByDecide Ev.isCommit false (Game.run E c n s) = true ∧
    framesPreCommit E c s (Game.run E c n s) :=
  ⟨run_ordered E c n s, run_sepRender E c n s false,
    run_sepCommit E c n s false, run_framesPreCommit E c n s⟩

/-- **C6**: when `decideNextMove` reports no move, the cycle performs no
render and no commit, and the trace ends there: the driver is stopped and
no mutating engine operation ever happens afterwards. -/
theorem run_stops_on_no_move {σ μ : Type} (E : Engine σ μ) (c : Canvas)
    (n : Nat) (s : σ) (h : E.step s = none) :
    countEv Ev.isRender (Game.run E c n s) = 0 ∧
    countEv Ev.isCommit (Game.run E c n s) = 0 ∧
    (Game.run E c n s = [] ∨ Game.run E c n s = [Ev.decide none]) := by
  cases n with
  | zero => exact ⟨rfl, rfl, Or.inl rfl⟩
  | succ n =>
    unfold Game.run
    rw [h]
    exact ⟨rfl, rfl, Or.inr rfl⟩

/-- **C6 witness**: on the concrete two-state engine, state 1 has no move,
and the driver trace from state 1 ends immediately with no render and no
commit. -/
theorem run_stops_on_no_move_witness :
    countEv Ev.isRender (Game.run engine0 canvas0 5 1) = 0 ∧
    countEv Ev.isCommit (Game.run engine0 canvas0 5 1) = 0 ∧
    (Game.run engine0 canvas0 5 1 = [] ∨
      Game.run engine0 canvas0 5 1 = [Ev.decide none]) :=
  run_stops_on_no_move engine0 canvas0 5 1 rfl

/-- **C7**: every render event of every driver trace uses the byte view
freshly re-derived from the engine state current at that event — the state
advanced by every commit so far — never a view retained from before an
earlier commit. -/
theorem run_views_fresh {σ μ : Type} (E : Engine σ μ) (c : Canvas)
    (n : Nat) (s : σ) :
    viewsFresh E s (Game.run E c n s) := by
  induction n generalizing s with
  | zero => exact trivial
  | succ n ih =>
    unfold Game.run
    cases hstep : E.step s with
    | none => exact trivial
    | some m =>
      cases hrender : Game.render c E.cols (E.score s) (Game.view E s) with
      | error e => exact trivial
      | ok ops => exact ⟨rfl, ih (E.input s m)⟩
